import Mathlib

/-!
Shallow embedding of the syncdbg offline synchronization core
(packages/core/src: StateManager.ts, SyncQueue.ts, ConflictResolver.ts,
Collection.ts, SyncEngine.ts) and proofs about it.

JavaScript values are modelled by an inductive `JsValue`; a date string is
represented by the instant it denotes (`vDateStr`), so that
`new Date(v).getTime()` becomes the total function `dateGetTime`
(`none` standing for `NaN`).  Documents are JS objects, modelled as
association lists from field name to value, with first-occurrence lookup
and in-place overwrite, matching JS object-spread semantics.

Durable storage (the PersistenceAdapter, backed by IndexedDB object stores
with keyPath `id`) is modelled with its three kinds of stores typed apart:
application document stores, the reserved operation-queue store
`_syncdbg_sync_queue`, and the reserved metadata store `_syncdbg_meta`
holding the pull cursor.  The spec requires application collection names to
be distinct from the two reserved store names; theorems that quantify over
pulled operations carry that distinctness as a hypothesis (`ReservedFree`).
Storage writes fail (IndexedDB DataError) when the written value carries no
valid primary key; such a failure is the exception source used to model a
pull whose application fails partway.

Asynchronous collaborator calls (api.push / api.pull) are injected: each
engine function takes the reply the collaborator would give to the one call
the function makes, `none` standing for an outright rejection.  Subscriber
fan-out is modelled by an event trace: every mutating StateManager call
that notifies subscribers emits the collection name.
-/

namespace Syncdbg

/-- A JavaScript value as observed by this core.  `vDateStr t` is a date
string (for example an ISO-8601 string) represented by the instant `t` it
denotes; `vStr` is a string that does not denote a date. -/
inductive JsValue where
  | vNum (n : Int)
  | vStr (s : String)
  | vDateStr (t : Int)
  | vBool (b : Bool)
  | vNull
deriving DecidableEq, Repr

/-- JavaScript truthiness of a value. -/
def JsValue.truthy : JsValue → Bool
  | .vNum n => decide (n ≠ 0)
  | .vStr s => decide (s ≠ "")
  | .vDateStr _ => true
  | .vBool b => b
  | .vNull => false

/-- Truthiness of a possibly-missing value (`none` is `undefined`). -/
def truthyOpt : Option JsValue → Bool
  | none => false
  | some v => v.truthy

/-- Model of `new Date(v).getTime()` where `none` on the input is
`undefined` and `none` on the output is `NaN`: numbers denote epoch
milliseconds, date strings denote their instant, other strings and
`undefined` parse to `NaN`, `null` to 0, booleans to 0 or 1. -/
def dateGetTime : Option JsValue → Option Int
  | none => none
  | some (.vNum n) => some n
  | some (.vStr _) => none
  | some (.vDateStr t) => some t
  | some (.vBool b) => some (if b then 1 else 0)
  | some .vNull => some 0

/-- Whether a value is a valid IndexedDB key (numbers, strings and dates
are; booleans and null are not). -/
def validKey : JsValue → Bool
  | .vNum _ => true
  | .vStr _ => true
  | .vDateStr _ => true
  | .vBool _ => false
  | .vNull => false

/-- Association-list lookup of the first binding of a key. -/
def alookup {α β : Type} [DecidableEq α] (k : α) : List (α × β) → Option β
  | [] => none
  | p :: rest => if p.1 = k then some p.2 else alookup k rest

/-- Association-list overwrite: replaces the first binding of the key in
place, or appends a new binding at the end (JS object / Map assignment). -/
def aset {α β : Type} [DecidableEq α] (k : α) (v : β) : List (α × β) → List (α × β)
  | [] => [(k, v)]
  | p :: rest => if p.1 = k then (k, v) :: rest else p :: aset k v rest

/-- Association-list removal of the first binding of a key (Map.delete). -/
def aremove {α β : Type} [DecidableEq α] (k : α) : List (α × β) → List (α × β)
  | [] => []
  | p :: rest => if p.1 = k then rest else p :: aremove k rest

/-- A document: a JS object, as a field-name-to-value association list. -/
abbrev Doc := List (String × JsValue)

/-- Field access `d[k]` on a document. -/
def getField (d : Doc) (k : String) : Option JsValue := alookup k d

/-- Field assignment `d[k] = v` on a document. -/
def setField (d : Doc) (k : String) (v : JsValue) : Doc := aset k v d

/-- Object spread `{...base, ...updates}`: every field of `updates` is
written over `base`, in order. -/
def mergeDoc (base : Doc) (updates : Doc) : Doc :=
  updates.foldl (fun acc p => setField acc p.1 p.2) base

/-- OperationType from collection/Collection.ts. -/
inductive OperationType where
  | create
  | update
  | delete
deriving DecidableEq, Repr

/-- Operation from collection/Collection.ts: one queued mutation intent.
`payload` is `none` where the source stores `null`. -/
structure Operation where
  id : String
  type : OperationType
  collection : String
  docId : JsValue
  payload : Option Doc
  timestamp : Int
deriving DecidableEq, Repr

/-- The in-memory State Projection (state/StateManager.ts): collection name
to map from document id to document.  A collection that was never touched
reads as empty; `ensureCollectionExists`, which only materializes an empty
per-collection map and subscriber set, is therefore the identity in this
embedding.  Mutations return the list of collection names whose subscribers
were notified (`notifySubscribers` calls). -/
structure StateManager where
  colls : List (String × List (JsValue × Doc))
deriving DecidableEq, Repr

/-- The per-collection map, empty when the collection was never touched. -/
def StateManager.getColl (sm : StateManager) (c : String) : List (JsValue × Doc) :=
  (alookup c sm.colls).getD []

/-- getDoc from StateManager.ts. -/
def StateManager.getDoc (sm : StateManager) (c : String) (docId : JsValue) : Option Doc :=
  alookup docId (sm.getColl c)

/-- Replace one collection's map. -/
def StateManager.setColl (sm : StateManager) (c : String) (m : List (JsValue × Doc)) :
    StateManager :=
  ⟨aset c m sm.colls⟩

/-- getCollectionState from StateManager.ts: all documents of a collection. -/
def StateManager.getCollectionState (sm : StateManager) (c : String) : List Doc :=
  (sm.getColl c).map (·.2)

/-- updateDoc from StateManager.ts: when the document exists, merge the
updates into it and notify subscribers; when it does not, do nothing. -/
def StateManager.updateDoc (sm : StateManager) (c : String) (docId : JsValue)
    (updates : Doc) : StateManager × List String :=
  match sm.getDoc c docId with
  | some existingDoc =>
      (sm.setColl c (aset docId (mergeDoc existingDoc updates) (sm.getColl c)), [c])
  | none => (sm, [])

/-- deleteDoc from StateManager.ts: remove the document and notify when it
exists, otherwise do nothing. -/
def StateManager.deleteDoc (sm : StateManager) (c : String) (docId : JsValue) :
    StateManager × List String :=
  match sm.getDoc c docId with
  | some _ => (sm.setColl c (aremove docId (sm.getColl c)), [c])
  | none => (sm, [])

/-- addDoc from StateManager.ts: insert or overwrite by id and notify. -/
def StateManager.addDoc (sm : StateManager) (c : String) (docId : JsValue) (d : Doc) :
    StateManager × List String :=
  (sm.setColl c (aset docId d (sm.getColl c)), [c])

/-- Conflict from sync/ConflictResolver.ts. -/
structure Conflict where
  localOperation : Operation
  remoteState : Doc
deriving DecidableEq, Repr

/-- Resolution from sync/ConflictResolver.ts: the merged-document case of
the union type `T | 'local' | 'remote'` is the `merged` constructor. -/
inductive Resolution where
  | localWins
  | remoteWins
  | merged (d : Doc)
deriving DecidableEq, Repr

/-- ConflictResolutionStrategy from sync/ConflictResolver.ts. -/
abbrev ConflictResolutionStrategy := Conflict → Resolution

/-- lastWriteWins from sync/ConflictResolver.ts.  The source computes
`new Date(remoteState[timestampField]).getTime()` and falls back to the
remote version under `if (!remoteTimestamp)`, which is taken both when the
parse result is `NaN` and when it is exactly `0`. -/
def lastWriteWins (timestampField : String) : ConflictResolutionStrategy :=
  fun conflict =>
    let localTimestamp := conflict.localOperation.timestamp
    match dateGetTime (getField conflict.remoteState timestampField) with
    | none => .remoteWins
    | some remoteTimestamp =>
        if remoteTimestamp = 0 then .remoteWins
        else if localTimestamp > remoteTimestamp then .localWins else .remoteWins

/-- serverWins from sync/ConflictResolver.ts. -/
def serverWins : ConflictResolutionStrategy := fun _ => .remoteWins

/-- clientWins from sync/ConflictResolver.ts. -/
def clientWins : ConflictResolutionStrategy := fun _ => .localWins

/-- fieldLevelMerge from sync/ConflictResolver.ts.  `now` is the instant
the resolver runs (`new Date()` in the source); the stamped value
`new Date().toISOString()` is the date string `vDateStr now`.  For a
non-update operation or a missing payload the source returns `remoteState`
itself (degrading to the remote version); otherwise it spreads the local
changes over the remote document and re-stamps the timestamp field only
under `if (mergedDoc[timestampField])`, that is, only when the merged
document holds a truthy value there. -/
def fieldLevelMerge (timestampField : String) (now : Int) : ConflictResolutionStrategy :=
  fun conflict =>
    match conflict.localOperation.type, conflict.localOperation.payload with
    | .update, some localChanges =>
        let mergedDoc := mergeDoc conflict.remoteState localChanges
        if truthyOpt (getField mergedDoc timestampField) then
          .merged (setField mergedDoc timestampField (.vDateStr now))
        else .merged mergedDoc
    | _, _ => .merged conflict.remoteState

/-- SYNC_QUEUE_STORE_NAME from sync/SyncQueue.ts: the reserved store
holding the durable operation queue. -/
def SYNC_QUEUE_STORE_NAME : String := "_syncdbg_sync_queue"

/-- The reserved store holding internal sync metadata (SyncEngine.ts uses
it for the persisted pull cursor). -/
def META_STORE_NAME : String := "_syncdbg_meta"

/-- Durable storage (the PersistenceAdapter) with the three kinds of
stores typed apart: application document stores (object stores with
keyPath `id`, so each record is keyed by its own `id` field), the reserved
queue store as a list of operations in storage scan order, and the
reserved metadata store reduced to the one record it ever holds, the
persisted pull cursor value. -/
structure Persistence where
  docs : List (String × List (JsValue × Doc))
  queue : List Operation
  meta : Option Int
deriving DecidableEq, Repr

/-- One application document store's records, empty when never written. -/
def Persistence.getStore (p : Persistence) (store : String) : List (JsValue × Doc) :=
  (alookup store p.docs).getD []

/-- persistence.set on an application document store.  IndexedDB extracts
the primary key from the value's `id` field (keyPath `id`) and throws a
DataError when the value is null or carries no valid key; `none` models
that exception, in which case the store is unchanged. -/
def Persistence.setDoc (p : Persistence) (store : String) (v : Option Doc) :
    Option Persistence :=
  match v with
  | none => none
  | some d =>
      match getField d "id" with
      | some k =>
          if validKey k then
            some { p with docs := aset store (aset k d (p.getStore store)) p.docs }
          else none
      | none => none

/-- persistence.delete on an application document store; throws (`none`)
on an invalid key. -/
def Persistence.deleteDoc (p : Persistence) (store : String) (k : JsValue) :
    Option Persistence :=
  if validKey k then
    some { p with docs := aset store (aremove k (p.getStore store)) p.docs }
  else none

/-- Insertion step of the model of JavaScript stable Array.prototype.sort
with the comparator `(a, b) => a.timestamp - b.timestamp`: the inserted
element goes in front of the first element with a greater-or-equal
timestamp, behind every strictly smaller one. -/
def insertByTs (x : Operation) : List Operation → List Operation
  | [] => [x]
  | y :: ys => if x.timestamp ≤ y.timestamp then x :: y :: ys else y :: insertByTs x ys

/-- Stable ascending sort by timestamp, modelling the (specified-stable)
JavaScript sort used by SyncQueue.getAll. -/
def sortByTimestamp : List Operation → List Operation
  | [] => []
  | x :: xs => insertByTs x (sortByTimestamp xs)

namespace SyncQueue

/-- SyncQueue.getAll: read every queued operation from the queue store and
sort by timestamp ascending. -/
def getAll (p : Persistence) : List Operation :=
  sortByTimestamp p.queue

/-- SyncQueue.get: fetch one queued operation by operation id. -/
def get (p : Persistence) (operationId : String) : Option Operation :=
  p.queue.find? (fun o => o.id == operationId)

/-- SyncQueue.dequeue: delete the record with that operation id from the
queue store (removing nothing when it is absent). -/
def dequeue (p : Persistence) (operationId : String) : Persistence :=
  { p with queue := p.queue.eraseP (fun o => o.id == operationId) }

/-- SyncQueue.enqueue: persistence.set on the queue store, keyed by the
operation's own id (overwrite in place or append). -/
def enqueue (p : Persistence) (op : Operation) : Persistence :=
  { p with queue := aset' op p.queue }
where
  /-- keyed overwrite-or-append on the operation list -/
  aset' (op : Operation) : List Operation → List Operation
    | [] => [op]
    | o :: os => if o.id = op.id then op :: os else o :: aset' op os

end SyncQueue

/-- Errors a Collection Facade call can surface to the application. -/
inductive CollectionError where
  | notFound
  | storageFailure
deriving DecidableEq, Repr

/-- The shared mutable world a Collection operates on: the State
Projection and durable storage (which contains the operation queue). -/
structure ClientState where
  stateManager : StateManager
  persistence : Persistence
deriving DecidableEq, Repr

/-- Subscriber and remote-collaborator activity recorded while the engine
runs: an api.push call with its batch, an api.pull call with its cursor,
and each StateManager subscriber fan-out with its collection name. -/
inductive SyncEvent where
  | pushCall (operations : List Operation)
  | pullCall (since : Option Int)
  | notified (collection : String)
deriving DecidableEq, Repr

/-- Collection.update from collection/Collection.ts.  The optimistic
StateManager.updateDoc runs first; the merged document is then read back,
a missing document raising the not-found error (the thrown `Error`) after
the (no-op) optimistic step and before any storage or queue write; on
success the full merged document is persisted and an update operation
carrying only the delta is enqueued.  `opId` and `now` stand for the
generated operation uuid and `Date.now()`. -/
def Collection.update (name : String) (w : ClientState) (docId : JsValue)
    (updates : Doc) (opId : String) (now : Int) :
    ClientState × List SyncEvent × Option CollectionError :=
  let r := w.stateManager.updateDoc name docId updates
  let w1 : ClientState := { w with stateManager := r.1 }
  let evs := r.2.map SyncEvent.notified
  match r.1.getDoc name docId with
  | none => (w1, evs, some .notFound)
  | some updatedDoc =>
      match w1.persistence.setDoc name (some updatedDoc) with
      | none => (w1, evs, some .storageFailure)
      | some p1 =>
          let op : Operation :=
            ⟨opId, .update, name, docId, some updates, now⟩
          ({ w1 with persistence := SyncQueue.enqueue p1 op }, evs, none)

/-- The SyncEngine's own state: the shared State Projection and storage
plus its in-memory pull cursor, the single-flight flag, and whether it is
currently subscribed to the NetworkDetector (true between start() and
stop()). -/
structure SyncEngine where
  stateManager : StateManager
  persistence : Persistence
  lastPulledAt : Option Int
  isSyncing : Bool
  subscribed : Bool
deriving DecidableEq, Repr

/-- One failed entry of an api.push reply: the operation id and the
remote document embedded in the opaque error, when the error carries a
usable one (`error?.remoteState`). -/
structure PushFailure where
  operationId : String
  remoteState : Option Doc
deriving DecidableEq, Repr

/-- A resolved api.push reply, partitioning the batch. -/
structure PushResult where
  successful : List String
  failed : List PushFailure
deriving DecidableEq, Repr

/-- The reply the api adapter gives to one push call; `none` is an
outright rejection of the whole call (for example a network failure). -/
abbrev PushReply := Option PushResult

/-- The reply the api adapter gives to one pull call; `none` is an
outright rejection. -/
abbrev PullReply := Option (List Operation × Int)

namespace SyncEngine

/-- Shared tail of SyncEngine.handleFailedOperation: apply a resolution
document to the State Projection and storage, then dequeue the resolved
operation.  The Boolean is false when the storage write threw, in which
case the dequeue is skipped (the exception propagates to pushChanges'
catch) but the already-performed in-memory update remains. -/
def applyResolution (e : SyncEngine) (collection : String) (finalDoc : Doc)
    (operationId : String) : SyncEngine × List SyncEvent × Bool :=
  let r :=
    match getField finalDoc "id" with
    | some k => e.stateManager.updateDoc collection k finalDoc
    | none => (e.stateManager, [])
  let e1 : SyncEngine := { e with stateManager := r.1 }
  let evs := r.2.map SyncEvent.notified
  match e1.persistence.setDoc collection (some finalDoc) with
  | none => (e1, evs, false)
  | some p1 =>
      ({ e1 with persistence := SyncQueue.dequeue p1 operationId }, evs, true)

/-- SyncEngine.handleFailedOperation: look the failed operation up in the
queue; without a usable remote state (no embedded document, or one whose
id differs from the operation's target) leave it queued; otherwise run the
conflict strategy and apply the outcome: local win leaves the operation
queued, remote win applies the remote document, a merged document is
applied likewise. -/
def handleFailedOperation (strategy : ConflictResolutionStrategy) (e : SyncEngine)
    (operationId : String) (remoteState : Option Doc) :
    SyncEngine × List SyncEvent × Bool :=
  match SyncQueue.get e.persistence operationId with
  | none => (e, [], true)
  | some localOperation =>
      match remoteState with
      | none => (e, [], true)
      | some rs =>
          if getField rs "id" ≠ some localOperation.docId then (e, [], true)
          else
            match strategy ⟨localOperation, rs⟩ with
            | .remoteWins => applyResolution e localOperation.collection rs operationId
            | .localWins => (e, [], true)
            | .merged d => applyResolution e localOperation.collection d operationId

/-- The failure loop of SyncEngine.pushChanges: resolve each failed entry
in order; the first exception stops the loop and is swallowed by the
surrounding catch, keeping every effect already performed. -/
def processFailures (strategy : ConflictResolutionStrategy) (e : SyncEngine) :
    List PushFailure → SyncEngine × List SyncEvent
  | [] => (e, [])
  | f :: rest =>
      let r := handleFailedOperation strategy e f.operationId f.remoteState
      if r.2.2 then
        let r2 := processFailures strategy r.1 rest
        (r2.1, r.2.1 ++ r2.2)
      else (r.1, r.2.1)

/-- SyncEngine.pushChanges: drain the queue; with nothing queued return
without calling the collaborator; otherwise push the sorted batch.  An
outright rejection is caught here, leaving the queue untouched.  On a
resolved reply, dequeue every successful operation, then resolve the
failures. -/
def pushChanges (strategy : ConflictResolutionStrategy) (e : SyncEngine)
    (reply : PushReply) : SyncEngine × List SyncEvent :=
  let operations := SyncQueue.getAll e.persistence
  if operations.isEmpty then (e, [])
  else
    match reply with
    | none => (e, [SyncEvent.pushCall operations])
    | some res =>
        let e1 : SyncEngine :=
          { e with persistence := res.successful.foldl SyncQueue.dequeue e.persistence }
        let r := processFailures strategy e1 res.failed
        (r.1, SyncEvent.pushCall operations :: r.2)

/-- One iteration of the application loop of SyncEngine.pullChanges: a
create or update patches the State Projection (spreading the payload over
an existing copy) and writes the payload to storage; a delete removes from
both.  The Boolean is false when the storage call threw; the in-memory
change made just before it remains. -/
def applyPulledOp (e : SyncEngine) (op : Operation) : SyncEngine × List SyncEvent × Bool :=
  match op.type with
  | .create | .update =>
      let r := e.stateManager.updateDoc op.collection op.docId (op.payload.getD [])
      let e1 : SyncEngine := { e with stateManager := r.1 }
      match e1.persistence.setDoc op.collection op.payload with
      | some p1 => ({ e1 with persistence := p1 }, r.2.map SyncEvent.notified, true)
      | none => (e1, r.2.map SyncEvent.notified, false)
  | .delete =>
      let r := e.stateManager.deleteDoc op.collection op.docId
      let e1 : SyncEngine := { e with stateManager := r.1 }
      match e1.persistence.deleteDoc op.collection op.docId with
      | some p1 => ({ e1 with persistence := p1 }, r.2.map SyncEvent.notified, true)
      | none => (e1, r.2.map SyncEvent.notified, false)

/-- The application loop of SyncEngine.pullChanges over the whole batch,
stopping at the first exception. -/
def applyPulledOps (e : SyncEngine) : List Operation → SyncEngine × List SyncEvent × Bool
  | [] => (e, [], true)
  | op :: rest =>
      let r := applyPulledOp e op
      if r.2.2 then
        let r2 := applyPulledOps r.1 rest
        (r2.1, r.2.1 ++ r2.2.1, r2.2.2)
      else (r.1, r.2.1, false)

/-- SyncEngine.saveLastPulledAt: persist the in-memory cursor into the
reserved metadata store. -/
def saveLastPulledAt (e : SyncEngine) : SyncEngine :=
  { e with persistence := { e.persistence with meta := e.lastPulledAt } }

/-- SyncEngine.pullChanges: ask the collaborator for changes since the
in-memory cursor.  An outright rejection is caught; an empty change list
returns before touching the cursor; otherwise the batch is applied in
order and, only when every change applied without exception, the cursor is
advanced to the returned timestamp and persisted.  An exception partway is
caught, keeping the changes already applied but leaving the cursor
alone. -/
def pullChanges (e : SyncEngine) (reply : PullReply) : SyncEngine × List SyncEvent :=
  let called := SyncEvent.pullCall e.lastPulledAt
  match reply with
  | none => (e, [called])
  | some (changes, timestamp) =>
      if changes.isEmpty then (e, [called])
      else
        let r := applyPulledOps e changes
        if r.2.2 then
          (saveLastPulledAt { r.1 with lastPulledAt := some timestamp }, called :: r.2.1)
        else (r.1, called :: r.2.1)

/-- SyncEngine.triggerSync: dropped when a cycle is already in flight or
the network is disconnected; otherwise run the push phase then the pull
phase; every phase exception is caught, so the cycle itself never
surfaces an error.  `connected` is network.isConnected() at the moment of
the call. -/
def triggerSync (strategy : ConflictResolutionStrategy) (connected : Bool)
    (e : SyncEngine) (pushReply : PushReply) (pullReply : PullReply) :
    SyncEngine × List SyncEvent :=
  if e.isSyncing || !connected then (e, [])
  else
    let r1 := pushChanges strategy e pushReply
    let r2 := pullChanges r1.1 pullReply
    (r2.1, r1.2 ++ r2.2)

/-- SyncEngine.stop: unsubscribe from the NetworkDetector.  Nothing else
is reset — in particular no stopped flag gates triggerSync. -/
def stop (e : SyncEngine) : SyncEngine :=
  { e with subscribed := false }

/-- SyncEngine.start: subscribe to the NetworkDetector and load the
persisted cursor. -/
def start (e : SyncEngine) : SyncEngine :=
  { e with subscribed := true,
           lastPulledAt := e.persistence.meta.elim e.lastPulledAt some }

/-- Delivery of one NetworkDetector connectivity event: the engine's
callback runs only while it is subscribed, and calls triggerSync exactly
when the event reports the network online. -/
def onConnectivityEvent (strategy : ConflictResolutionStrategy) (e : SyncEngine)
    (isOnline : Bool) (pushReply : PushReply) (pullReply : PullReply) :
    SyncEngine × List SyncEvent :=
  if e.subscribed then
    if isOnline then triggerSync strategy isOnline e pushReply pullReply
    else (e, [])
  else (e, [])

end SyncEngine

/-- Reserved-name discipline required by the spec: pulled operations name
application collections, never the two reserved store names. -/
def ReservedFree (ops : List Operation) : Prop :=
  ∀ op ∈ ops, op.collection ≠ SYNC_QUEUE_STORE_NAME ∧ op.collection ≠ META_STORE_NAME

instance : DecidablePred ReservedFree := fun _ =>
  List.decidableBAll _ _

/-! Concrete documents, operations and engine states used by the
counterexample and witness theorems below. -/

/-- A conflict whose remote timestamp field parses to exactly 0 while the
local operation's timestamp is 100. -/
def conflictEpochZero : Conflict :=
  ⟨⟨"op1", .update, "notes", .vNum 1, some [("title", .vStr "B")], 100⟩,
   [("id", .vNum 1), ("title", .vStr "A"), ("updatedAt", .vNum 0)]⟩

/-- A conflict whose remote state has no timestamp field at all. -/
def conflictNoStamp : Conflict :=
  ⟨⟨"op1", .update, "notes", .vNum 1, some [("title", .vStr "B")], 100⟩,
   [("id", .vNum 1), ("title", .vStr "A")]⟩

/-- The spec's merge-correctness example: local delta `{title: "B"}`
against remote `{id: 1, title: "A", body: "x", updatedAt: T0}` with
T0 = 90. -/
def conflictMergeExample : Conflict :=
  ⟨⟨"op1", .update, "notes", .vNum 1, some [("title", .vStr "B")], 100⟩,
   [("id", .vNum 1), ("title", .vStr "A"), ("body", .vStr "x"),
    ("updatedAt", .vDateStr 90)]⟩

/-- A queued update operation targeting document "1" of "notes". -/
def queuedOpNotes : Operation :=
  ⟨"op1", .update, "notes", .vStr "1", some [("title", .vStr "A2")], 5⟩

/-- The local copy of document "1": it carries a field `extra` that the
remote version lacks. -/
def localDocNotes : Doc :=
  [("id", .vStr "1"), ("title", .vStr "A"), ("extra", .vStr "z")]

/-- The remote document the collaborator supplies with the push
failure: no `extra` field, a newer title. -/
def remoteDocNotes : Doc := [("id", .vStr "1"), ("title", .vStr "B")]

/-- An engine holding document "1" in both the State Projection and
storage, with the update operation queued. -/
def engineWithLocalDoc : SyncEngine :=
  ⟨⟨[("notes", [(.vStr "1", localDocNotes)])]⟩,
   ⟨[("notes", [(.vStr "1", localDocNotes)])], [queuedOpNotes], none⟩,
   none, false, true⟩

/-- The same engine with document "1" absent from the State Projection
(for example after a restart where only storage was reloaded elsewhere). -/
def engineWithoutLocalDoc : SyncEngine :=
  ⟨⟨[]⟩,
   ⟨[("notes", [(.vStr "1", localDocNotes)])], [queuedOpNotes], none⟩,
   none, false, true⟩

/-- An idle, started engine with empty projection, storage and queue. -/
def engineEmpty : SyncEngine := ⟨⟨[]⟩, ⟨[], [], none⟩, none, false, true⟩

/-- An idle, started engine whose queue holds one create operation. -/
def engineWithQueuedCreate : SyncEngine :=
  ⟨⟨[]⟩, ⟨[], [⟨"opB", .create, "notes", .vStr "1",
    some [("id", .vStr "1"), ("title", .vStr "x")], 1⟩], none⟩, none, false, true⟩

/-- A remote change: a create of document "9" in "notes". -/
def pulledCreateNine : Operation :=
  ⟨"srv1", .create, "notes", .vStr "9", some [("id", .vStr "9"), ("v", .vNum 1)], 7⟩

/-- A remote change: a create of document "1" in "notes". -/
def pulledCreateOne : Operation :=
  ⟨"srv2", .create, "notes", .vStr "1", some [("id", .vStr "1")], 1⟩

/-! Ordering lemmas for the queue's stable timestamp sort. -/

theorem mem_insertByTs {x a : Operation} :
    ∀ {l : List Operation}, a ∈ insertByTs x l ↔ a = x ∨ a ∈ l := by
  intro l
  induction l with
  | nil => simp [insertByTs]
  | cons y ys ih =>
    simp only [insertByTs]
    split
    · simp [List.mem_cons]
    · simp only [List.mem_cons, ih]
      tauto

theorem pairwise_insertByTs {x : Operation} {l : List Operation}
    (h : l.Pairwise (fun a b => a.timestamp ≤ b.timestamp)) :
    (insertByTs x l).Pairwise (fun a b => a.timestamp ≤ b.timestamp) := by
  induction l with
  | nil => simp [insertByTs]
  | cons y ys ih =>
    rcases List.pairwise_cons.1 h with ⟨hy, hys⟩
    simp only [insertByTs]
    by_cases hxy : x.timestamp ≤ y.timestamp
    · rw [if_pos hxy]
      refine List.pairwise_cons.2 ⟨?_, h⟩
      intro z hz
      rcases List.mem_cons.1 hz with rfl | hz
      · exact hxy
      · exact le_trans hxy (hy z hz)
    · rw [if_neg hxy]
      refine List.pairwise_cons.2 ⟨?_, ih hys⟩
      intro z hz
      rcases mem_insertByTs.1 hz with rfl | hz
      · omega
      · exact hy z hz

theorem filter_insertByTs (x : Operation) (t : Int) :
    ∀ l : List Operation,
      (insertByTs x l).filter (fun o => decide (o.timestamp = t)) =
        if x.timestamp = t then
          x :: l.filter (fun o => decide (o.timestamp = t))
        else l.filter (fun o => decide (o.timestamp = t)) := by
  intro l
  induction l with
  | nil => by_cases hx : x.timestamp = t <;> simp [insertByTs, hx]
  | cons y ys ih =>
    simp only [insertByTs]
    by_cases hxy : x.timestamp ≤ y.timestamp
    · rw [if_pos hxy]
      by_cases hx : x.timestamp = t <;> simp [List.filter_cons, hx]
    · rw [if_neg hxy]
      by_cases hx : x.timestamp = t
      · have hyt : ¬ y.timestamp = t := by omega
        simp [List.filter_cons, hyt, ih, hx]
      · by_cases hyt : y.timestamp = t <;>
          simp [List.filter_cons, hyt, ih, hx]

theorem perm_insertByTs (x : Operation) (l : List Operation) :
    List.Perm (insertByTs x l) (x :: l) := by
  induction l with
  | nil => exact List.Perm.refl _
  | cons y ys ih =>
    simp only [insertByTs]
    split
    · exact List.Perm.refl _
    · exact ((ih.cons y).trans (List.Perm.swap x y ys))

theorem sortByTimestamp_pairwise :
    ∀ l : List Operation,
      (sortByTimestamp l).Pairwise (fun a b => a.timestamp ≤ b.timestamp) := by
  intro l
  induction l with
  | nil => simp [sortByTimestamp]
  | cons x xs ih => exact pairwise_insertByTs ih

theorem sortByTimestamp_filter (t : Int) :
    ∀ l : List Operation,
      (sortByTimestamp l).filter (fun o => decide (o.timestamp = t)) =
        l.filter (fun o => decide (o.timestamp = t)) := by
  intro l
  induction l with
  | nil => rfl
  | cons x xs ih =>
    simp only [sortByTimestamp, filter_insertByTs, ih]
    by_cases hx : x.timestamp = t <;> simp [List.filter_cons, hx]

theorem sortByTimestamp_perm : ∀ l : List Operation, List.Perm (sortByTimestamp l) l := by
  intro l
  induction l with
  | nil => exact List.Perm.refl _
  | cons x xs ih => exact (perm_insertByTs x _).trans (ih.cons x)

/-! Association-list and document-merge lemmas. -/

theorem alookup_aset_self {α β : Type} [DecidableEq α] (k : α) (v : β) :
    ∀ l : List (α × β), alookup k (aset k v l) = some v := by
  intro l
  induction l with
  | nil => simp [aset, alookup]
  | cons p rest ih =>
    simp only [aset]
    by_cases h : p.1 = k
    · simp [alookup, h]
    · simp [alookup, h, ih]

theorem alookup_aset_ne {α β : Type} [DecidableEq α] {k k' : α} (h : k' ≠ k) (v : β) :
    ∀ l : List (α × β), alookup k' (aset k v l) = alookup k' l := by
  intro l
  have hk : ¬ k = k' := fun hh => h hh.symm
  induction l with
  | nil => simp [aset, alookup, hk]
  | cons p rest ih =>
    simp only [aset]
    by_cases hp : p.1 = k
    · subst hp
      simp only [alookup, if_neg hk]
    · simp only [if_neg hp, alookup, ih]

theorem alookup_eq_none_of_not_mem {α β : Type} [DecidableEq α] {k : α} :
    ∀ {l : List (α × β)}, k ∉ l.map Prod.fst → alookup k l = none := by
  intro l
  induction l with
  | nil => intro _; rfl
  | cons p rest ih =>
    intro h
    simp only [List.map_cons, List.mem_cons] at h
    push_neg at h
    have hp : ¬ p.1 = k := fun hh => h.1 hh.symm
    simp only [alookup, if_neg hp]
    exact ih h.2

theorem mergeDoc_cons (base : Doc) (p : String × JsValue) (rest : Doc) :
    mergeDoc base (p :: rest) = mergeDoc (setField base p.1 p.2) rest := rfl

theorem getField_mergeDoc_of_not_mem {updates : Doc} {k : String}
    (h : k ∉ updates.map Prod.fst) :
    ∀ base : Doc, getField (mergeDoc base updates) k = getField base k := by
  induction updates with
  | nil => intro base; rfl
  | cons p rest ih =>
    intro base
    simp only [List.map_cons, List.mem_cons] at h
    push_neg at h
    rw [mergeDoc_cons, ih h.2]
    exact alookup_aset_ne h.1 p.2 base

theorem getField_mergeDoc {k : String} :
    ∀ (updates : Doc), (updates.map Prod.fst).Nodup →
      ∀ base : Doc,
        getField (mergeDoc base updates) k = (getField updates k).or (getField base k) := by
  intro updates
  induction updates with
  | nil => intro _ base; simp [mergeDoc, getField, alookup, Option.or]
  | cons p rest ih =>
    intro hnd base
    have hnd' : (p.1 :: rest.map Prod.fst).Nodup := by simpa using hnd
    have hp : p.1 ∉ rest.map Prod.fst := (List.nodup_cons.1 hnd').1
    have hrest : (rest.map Prod.fst).Nodup := (List.nodup_cons.1 hnd').2
    rw [mergeDoc_cons, ih hrest]
    by_cases hk : p.1 = k
    · subst hk
      rw [show getField rest p.1 = none from alookup_eq_none_of_not_mem hp]
      show Option.or none _ = Option.or (alookup p.1 (p :: rest)) _
      simp [alookup, getField, setField, alookup_aset_self]
    · have hk' : k ≠ p.1 := fun hh => hk hh.symm
      have hset : getField (aset p.1 p.2 base) k = getField base k :=
        alookup_aset_ne hk' p.2 base
      show Option.or (getField rest k) (getField (aset p.1 p.2 base) k) =
        Option.or (alookup k (p :: rest)) (getField base k)
      rw [hset]
      simp [alookup, hk, getField]

/-! Frame lemmas: which parts of the engine state each operation can
touch. -/

theorem setDoc_frame {p : Persistence} {store : String} {v : Option Doc}
    {p' : Persistence} (h : p.setDoc store v = some p') :
    p'.queue = p.queue ∧ p'.meta = p.meta := by
  cases v with
  | none => simp [Persistence.setDoc] at h
  | some d =>
    simp only [Persistence.setDoc] at h
    rcases hg : getField d "id" with _ | k
    · simp [hg] at h
    · simp only [hg] at h
      by_cases hv : validKey k
      · simp only [hv, if_true] at h
        rw [← Option.some.inj h]
        exact ⟨rfl, rfl⟩
      · simp [hv] at h

theorem deleteDoc_frame {p : Persistence} {store : String} {k : JsValue}
    {p' : Persistence} (h : p.deleteDoc store k = some p') :
    p'.queue = p.queue ∧ p'.meta = p.meta := by
  simp only [Persistence.deleteDoc] at h
  by_cases hv : validKey k
  · rw [if_pos hv] at h
    cases h
    exact ⟨rfl, rfl⟩
  · rw [if_neg hv] at h
    cases h

theorem applyPulledOp_frame (e : SyncEngine) (op : Operation) :
    (SyncEngine.applyPulledOp e op).1.persistence.queue = e.persistence.queue ∧
    (SyncEngine.applyPulledOp e op).1.persistence.meta = e.persistence.meta ∧
    (SyncEngine.applyPulledOp e op).1.lastPulledAt = e.lastPulledAt := by
  rcases htype : op.type with _ | _ | _ <;>
    simp only [SyncEngine.applyPulledOp, htype]
  case create | update =>
    rcases hs : Persistence.setDoc _ op.collection op.payload with _ | p1
    · simp [hs]
    · simpa [hs] using (setDoc_frame hs)
  case delete =>
    rcases hs : Persistence.deleteDoc _ op.collection op.docId with _ | p1
    · simp [hs]
    · simpa [hs] using (deleteDoc_frame hs)

theorem applyPulledOps_frame :
    ∀ (ops : List Operation) (e : SyncEngine),
      (SyncEngine.applyPulledOps e ops).1.persistence.queue = e.persistence.queue ∧
      (SyncEngine.applyPulledOps e ops).1.persistence.meta = e.persistence.meta ∧
      (SyncEngine.applyPulledOps e ops).1.lastPulledAt = e.lastPulledAt := by
  intro ops
  induction ops with
  | nil => intro e; exact ⟨rfl, rfl, rfl⟩
  | cons op rest ih =>
    intro e
    simp only [SyncEngine.applyPulledOps]
    rcases h1 : (SyncEngine.applyPulledOp e op) with ⟨e1, evs, ok⟩
    have hop := applyPulledOp_frame e op
    rw [h1] at hop
    cases ok
    · simpa using hop
    · have hrest := ih e1
      simp only [if_pos rfl]
      exact ⟨hrest.1.trans hop.1, hrest.2.1.trans hop.2.1, hrest.2.2.trans hop.2.2⟩

theorem pullChanges_queue (e : SyncEngine) (reply : PullReply) :
    (SyncEngine.pullChanges e reply).1.persistence.queue = e.persistence.queue := by
  rcases reply with _ | ⟨changes, timestamp⟩
  · rfl
  · simp only [SyncEngine.pullChanges]
    by_cases hc : changes.isEmpty
    · simp [hc]
    · simp only [hc, if_neg (by simp [hc] : ¬ changes.isEmpty = true)]
      have := (applyPulledOps_frame changes e).1
      by_cases hok : (SyncEngine.applyPulledOps e changes).2.2
      · simp [hok, SyncEngine.saveLastPulledAt, this]
      · simp [hok, this]

/-- C6: for every multiset of queued operations and every enumeration
order the underlying storage returns them in, drain (SyncQueue.getAll)
returns the operations sorted by timestamp in ascending order, it returns
exactly the stored operations, and operations with equal timestamps keep
the relative order of the storage scan (stable sort). -/
theorem syncQueue_getAll_sorted_stable (p : Persistence) :
    (SyncQueue.getAll p).Pairwise (fun a b => a.timestamp ≤ b.timestamp) ∧
    List.Perm (SyncQueue.getAll p) p.queue ∧
    ∀ t : Int,
      (SyncQueue.getAll p).filter (fun o => decide (o.timestamp = t)) =
        p.queue.filter (fun o => decide (o.timestamp = t)) :=
  ⟨sortByTimestamp_pairwise _, sortByTimestamp_perm _,
   fun t => sortByTimestamp_filter t _⟩

/-- C8: for every collection and every id not present in it, the State
Projection's patch operation (StateManager.updateDoc) is a no-op: it
raises no error, leaves the state exactly as it was, and notifies no
subscriber. -/
theorem updateDoc_absent_noop (sm : StateManager) (c : String) (docId : JsValue)
    (updates : Doc) (h : sm.getDoc c docId = none) :
    sm.updateDoc c docId updates = (sm, []) := by
  simp [StateManager.updateDoc, h]

/-- Witness for C8: patching document "1" of "notes" in the empty state. -/
theorem updateDoc_absent_noop_witness :
    StateManager.getDoc ⟨[]⟩ "notes" (.vStr "1") = none ∧
    StateManager.updateDoc ⟨[]⟩ "notes" (.vStr "1") [("title", .vStr "B")] = (⟨[]⟩, []) :=
  ⟨rfl, updateDoc_absent_noop ⟨[]⟩ "notes" (.vStr "1") [("title", .vStr "B")] rfl⟩

/-- C7: for every collection and every id absent from the State
Projection, the Collection Facade's update fails with the NotFound error,
and at that failure nothing changed: the State Projection, durable
storage and operation queue are exactly as before and no subscriber was
notified. -/
theorem collection_update_notFound_frame (name : String) (w : ClientState)
    (docId : JsValue) (updates : Doc) (opId : String) (now : Int)
    (h : w.stateManager.getDoc name docId = none) :
    Collection.update name w docId updates opId now = (w, [], some .notFound) := by
  simp [Collection.update, StateManager.updateDoc, h]

/-- Witness for C7: updating missing document "1" in an empty client. -/
theorem collection_update_notFound_frame_witness :
    StateManager.getDoc ⟨[]⟩ "notes" (.vStr "1") = none ∧
    Collection.update "notes" ⟨⟨[]⟩, ⟨[], [], none⟩⟩ (.vStr "1")
        [("title", .vStr "B")] "op9" 3 =
      (⟨⟨[]⟩, ⟨[], [], none⟩⟩, [], some .notFound) :=
  ⟨rfl, collection_update_notFound_frame "notes" ⟨⟨[]⟩, ⟨[], [], none⟩⟩ (.vStr "1")
    [("title", .vStr "B")] "op9" 3 rfl⟩

/-- C4, amended: LastWriteWins resolves RemoteWins whenever the remote
timestamp field is missing or unparsable, and also when it parses to
exactly time 0 (the falsy-zero fallback); when it parses to a nonzero
time, LocalWins holds exactly when the local operation's timestamp is
strictly greater, RemoteWins on ties and below. -/
theorem lastWriteWins_spec (timestampField : String) (c : Conflict) :
    (dateGetTime (getField c.remoteState timestampField) = none →
      lastWriteWins timestampField c = .remoteWins) ∧
    (dateGetTime (getField c.remoteState timestampField) = some 0 →
      lastWriteWins timestampField c = .remoteWins) ∧
    (∀ t : Int, dateGetTime (getField c.remoteState timestampField) = some t → t ≠ 0 →
      ((lastWriteWins timestampField c = .localWins ↔ t < c.localOperation.timestamp) ∧
       (c.localOperation.timestamp ≤ t → lastWriteWins timestampField c = .remoteWins))) := by
  simp only [lastWriteWins]
  refine ⟨?_, ?_, ?_⟩
  · intro h
    rw [h]
  · intro h
    rw [h]
    simp
  · intro t h ht
    rw [h]
    simp only [if_neg ht]
    constructor
    · by_cases hlt : c.localOperation.timestamp > t
      · simp only [if_pos hlt]
        constructor
        · intro _
          omega
        · intro _
          trivial
      · simp only [if_neg hlt]
        constructor
        · intro hcon
          cases hcon
        · intro hcon
          omega
    · intro hle
      rw [if_neg (by omega : ¬ c.localOperation.timestamp > t)]

/-- Witness for C4: a remote state without the timestamp field resolves
RemoteWins. -/
theorem lastWriteWins_spec_witness :
    dateGetTime (getField conflictNoStamp.remoteState "updatedAt") = none ∧
    lastWriteWins "updatedAt" conflictNoStamp = .remoteWins :=
  ⟨rfl, (lastWriteWins_spec "updatedAt" conflictNoStamp).1 rfl⟩

/-- Counterexample to C4 as stated: the remote timestamp field is present
and parses (to exactly 0) and the local timestamp 100 is strictly
greater, so the claim requires LocalWins, but the falsy-zero check makes
the remote version win. -/
theorem lastWriteWins_zero_epoch_counter :
    dateGetTime (getField conflictEpochZero.remoteState "updatedAt") = some 0 ∧
    conflictEpochZero.localOperation.timestamp = 100 ∧
    lastWriteWins "updatedAt" conflictEpochZero ≠ .localWins ∧
    lastWriteWins "updatedAt" conflictEpochZero = .remoteWins := by
  decide

/-- C5, amended: for an Update conflict carrying a payload,
FieldLevelMerge returns a merged document that takes every field from the
local delta where present and from the remote document otherwise; its
timestamp field is stamped to the resolution instant precisely when the
spread of the delta over the remote document leaves a truthy value in
that field, and is left untouched (in particular possibly absent)
otherwise; for Create/Delete conflicts or a missing payload the strategy
returns the remote document itself. -/
theorem fieldLevelMerge_spec (timestampField : String) (now : Int) (c : Conflict)
    (delta : Doc) (htype : c.localOperation.type = .update)
    (hpay : c.localOperation.payload = some delta)
    (hnd : (delta.map Prod.fst).Nodup) :
    (∃ m : Doc, fieldLevelMerge timestampField now c = .merged m ∧
      (∀ k, k ≠ timestampField →
        getField m k = (getField delta k).or (getField c.remoteState k)) ∧
      (truthyOpt (getField (mergeDoc c.remoteState delta) timestampField) = true →
        getField m timestampField = some (.vDateStr now) ∧
        dateGetTime (getField m timestampField) = some now) ∧
      (truthyOpt (getField (mergeDoc c.remoteState delta) timestampField) = false →
        m = mergeDoc c.remoteState delta)) ∧
    (∀ c' : Conflict,
      c'.localOperation.type ≠ .update ∨ c'.localOperation.payload = none →
        fieldLevelMerge timestampField now c' = .merged c'.remoteState) := by
  constructor
  · simp only [fieldLevelMerge, htype, hpay]
    by_cases htr : truthyOpt (getField (mergeDoc c.remoteState delta) timestampField)
    · refine ⟨setField (mergeDoc c.remoteState delta) timestampField (.vDateStr now),
        by simp [htr], ?_, ?_, ?_⟩
      · intro k hk
        have h1 : getField (setField (mergeDoc c.remoteState delta) timestampField
            (.vDateStr now)) k = getField (mergeDoc c.remoteState delta) k :=
          alookup_aset_ne hk _ _
        rw [h1, getField_mergeDoc delta hnd]
      · intro _
        have h2 : getField (setField (mergeDoc c.remoteState delta) timestampField
            (.vDateStr now)) timestampField = some (.vDateStr now) :=
          alookup_aset_self _ _ _
        rw [h2]
        exact ⟨rfl, rfl⟩
      · intro hcon
        rw [htr] at hcon
        cases hcon
    · have htr' : truthyOpt (getField (mergeDoc c.remoteState delta) timestampField)
          = false := by
        revert htr
        cases truthyOpt (getField (mergeDoc c.remoteState delta) timestampField) <;> simp
      refine ⟨mergeDoc c.remoteState delta, by simp [htr'], ?_, ?_, fun _ => rfl⟩
      · intro k _
        rw [getField_mergeDoc delta hnd]
      · intro hcon
        rw [htr'] at hcon
        cases hcon
  · intro c' h'
    rcases hty : c'.localOperation.type with _ | _ | _ <;>
      rcases hpa : c'.localOperation.payload with _ | d <;>
        simp [fieldLevelMerge, hty, hpa]
    rcases h' with h' | h'
    · exact absurd hty h'
    · rw [hpa] at h'
      cases h'

/-- Witness for C5: the spec's merge-correctness example, with resolution
instant 200 strictly after the remote timestamp 90. -/
theorem fieldLevelMerge_spec_witness :
    ∃ m : Doc, fieldLevelMerge "updatedAt" 200 conflictMergeExample = .merged m ∧
      getField m "updatedAt" = some (.vDateStr 200) := by
  obtain ⟨⟨m, hm, _, hstamp, _⟩, _⟩ :=
    fieldLevelMerge_spec "updatedAt" 200 conflictMergeExample
      [("title", .vStr "B")] rfl rfl (by decide)
  exact ⟨m, hm, (hstamp (by decide)).1⟩

/-- Counterexample to C5 as stated: an Update conflict with a payload
whose remote document lacks the timestamp field entirely; the claim
requires the merged document's timestamp field to be stamped to the
resolution time, but the merge leaves it absent. -/
theorem fieldLevelMerge_unstamped_counter :
    conflictNoStamp.localOperation.type = .update ∧
    conflictNoStamp.localOperation.payload = some [("title", .vStr "B")] ∧
    fieldLevelMerge "updatedAt" 200 conflictNoStamp =
      .merged [("id", .vNum 1), ("title", .vStr "B")] ∧
    getField [("id", JsValue.vNum 1), ("title", JsValue.vStr "B")] "updatedAt" = none := by
  decide

/-- A successful non-empty pull application advances both the in-memory
and the persisted cursor to the returned timestamp. -/
theorem pullChanges_success_meta (e : SyncEngine) (cs : List Operation) (t : Int)
    (hne : cs ≠ []) (hok : (SyncEngine.applyPulledOps e cs).2.2 = true) :
    (SyncEngine.pullChanges e (some (cs, t))).1.persistence.meta = some t ∧
    (SyncEngine.pullChanges e (some (cs, t))).1.lastPulledAt = some t := by
  have hemp : cs.isEmpty = false := by
    cases cs
    · exact absurd rfl hne
    · rfl
  simp [SyncEngine.pullChanges, hemp, hok, SyncEngine.saveLastPulledAt]

/-- A pull whose application fails partway leaves both cursors alone. -/
theorem pullChanges_fail_meta (e : SyncEngine) (cs : List Operation) (t : Int)
    (hfail : (SyncEngine.applyPulledOps e cs).2.2 = false) :
    (SyncEngine.pullChanges e (some (cs, t))).1.persistence.meta =
      e.persistence.meta ∧
    (SyncEngine.pullChanges e (some (cs, t))).1.lastPulledAt = e.lastPulledAt := by
  have hne : cs ≠ [] := by
    intro h
    subst h
    simp [SyncEngine.applyPulledOps] at hfail
  have hemp : cs.isEmpty = false := by
    cases cs
    · exact absurd rfl hne
    · rfl
  have hred : (SyncEngine.pullChanges e (some (cs, t))).1 =
      (SyncEngine.applyPulledOps e cs).1 := by
    simp [SyncEngine.pullChanges, hemp, hfail]
  rw [hred]
  exact ⟨(applyPulledOps_frame cs e).2.1, (applyPulledOps_frame cs e).2.2⟩

/-- C1, amended: the persisted cursor moves only when a pull returned a
non-empty batch that was applied in full, and then it moves to the
returned value; a pull that fails partway leaves both the in-memory and
the persisted cursor unchanged; two successive successful pulls each
returning at least one change, with cursors C1 then C2, leave the
persisted cursor equal to C2 (a successful pull returning zero changes
returns early and does not advance the cursor).  `ReservedFree` records
the reserved-store-name discipline the spec imposes on pulled
operations. -/
theorem pull_cursor_advance_spec (e : SyncEngine) (changes1 changes2 : List Operation)
    (t1 t2 : Int)
    (_hres1 : ReservedFree changes1) (_hres2 : ReservedFree changes2)
    (_hne1 : changes1 ≠ []) (hne2 : changes2 ≠ [])
    (_hok1 : (SyncEngine.applyPulledOps e changes1).2.2 = true)
    (hok2 : (SyncEngine.applyPulledOps
      (SyncEngine.pullChanges e (some (changes1, t1))).1 changes2).2.2 = true) :
    ((SyncEngine.pullChanges (SyncEngine.pullChanges e (some (changes1, t1))).1
        (some (changes2, t2))).1.persistence.meta = some t2 ∧
     (SyncEngine.pullChanges (SyncEngine.pullChanges e (some (changes1, t1))).1
        (some (changes2, t2))).1.lastPulledAt = some t2) ∧
    (∀ (k : SyncEngine) (cs : List Operation) (t : Int),
      (SyncEngine.applyPulledOps k cs).2.2 = false →
        (SyncEngine.pullChanges k (some (cs, t))).1.persistence.meta =
          k.persistence.meta ∧
        (SyncEngine.pullChanges k (some (cs, t))).1.lastPulledAt = k.lastPulledAt) ∧
    (∀ (k : SyncEngine) (reply : PullReply),
      (SyncEngine.pullChanges k reply).1.persistence.meta ≠ k.persistence.meta →
      ∃ cs t, reply = some (cs, t) ∧ cs ≠ [] ∧
        (SyncEngine.applyPulledOps k cs).2.2 = true ∧
        (SyncEngine.pullChanges k reply).1.persistence.meta = some t) := by
  refine ⟨pullChanges_success_meta _ changes2 t2 hne2 hok2,
    fun k cs t hfail => pullChanges_fail_meta k cs t hfail, ?_⟩
  intro k reply hchg
  rcases reply with _ | ⟨cs, t⟩
  · exact absurd rfl hchg
  · by_cases hemp : cs.isEmpty
    · have : (SyncEngine.pullChanges k (some (cs, t))).1 = k := by
        simp [SyncEngine.pullChanges, hemp]
      rw [this] at hchg
      exact absurd rfl hchg
    · have hne : cs ≠ [] := by
        intro h
        subst h
        exact hemp rfl
      by_cases hok : (SyncEngine.applyPulledOps k cs).2.2
      · exact ⟨cs, t, rfl, hne, hok,
          (pullChanges_success_meta k cs t hne hok).1⟩
      · have hfail : (SyncEngine.applyPulledOps k cs).2.2 = false := by
          revert hok
          cases (SyncEngine.applyPulledOps k cs).2.2 <;> simp
        rw [(pullChanges_fail_meta k cs t hfail).1] at hchg
        exact absurd rfl hchg

/-- Witness for C1: two successful single-change pulls with cursors 10
then 20 leave the persisted cursor at 20. -/
theorem pull_cursor_advance_spec_witness :
    (SyncEngine.pullChanges
      (SyncEngine.pullChanges engineEmpty (some ([pulledCreateOne], 10))).1
      (some ([pulledCreateNine], 20))).1.persistence.meta = some 20 :=
  (pull_cursor_advance_spec engineEmpty [pulledCreateOne] [pulledCreateNine] 10 20
    (by decide) (by decide) (by decide) (by decide) (by decide) (by decide)).1.1

/-- Counterexample to C1 as stated: a first successful pull returns
cursor 10; a second pull succeeds (the collaborator resolves with cursor
20) but carries zero changes, and the persisted cursor stays at 10, not
C2 = 20. -/
theorem pull_cursor_empty_batch_counter :
    (SyncEngine.applyPulledOps engineEmpty [pulledCreateOne]).2.2 = true ∧
    (SyncEngine.pullChanges engineEmpty
        (some ([pulledCreateOne], 10))).1.persistence.meta = some 10 ∧
    (SyncEngine.pullChanges
        (SyncEngine.pullChanges engineEmpty (some ([pulledCreateOne], 10))).1
        (some ([], 20))).1.persistence.meta = some 10 ∧
    some (10 : Int) ≠ some (20 : Int) := by
  decide

/-- C2, amended: an outright push rejection is caught inside the push
phase: the queue is untouched, no error is surfaced (triggerSync returns
normally), but the cycle is not aborted — it proceeds to the pull phase
exactly as if the push phase had been a no-op. -/
theorem push_reject_continues_to_pull (strategy : ConflictResolutionStrategy)
    (e : SyncEngine) (pullReply : PullReply)
    (hsync : e.isSyncing = false)
    (hq : SyncQueue.getAll e.persistence ≠ [])
    (_hres : ∀ cs t, pullReply = some (cs, t) → ReservedFree cs) :
    SyncEngine.triggerSync strategy true e none pullReply =
      ((SyncEngine.pullChanges e pullReply).1,
        SyncEvent.pushCall (SyncQueue.getAll e.persistence) ::
          (SyncEngine.pullChanges e pullReply).2) ∧
    (SyncEngine.triggerSync strategy true e none pullReply).1.persistence.queue =
      e.persistence.queue := by
  have hemp : (SyncQueue.getAll e.persistence).isEmpty = false := by
    cases hgl : SyncQueue.getAll e.persistence
    · exact absurd hgl hq
    · rfl
  have h1 : SyncEngine.triggerSync strategy true e none pullReply =
      ((SyncEngine.pullChanges e pullReply).1,
        SyncEvent.pushCall (SyncQueue.getAll e.persistence) ::
          (SyncEngine.pullChanges e pullReply).2) := by
    simp [SyncEngine.triggerSync, SyncEngine.pushChanges, hsync, hemp]
  refine ⟨h1, ?_⟩
  rw [h1]
  exact pullChanges_queue e pullReply

/-- Witness for C2: a rejected push on a one-operation queue followed by
a rejected pull. -/
theorem push_reject_continues_to_pull_witness :
    SyncEngine.triggerSync serverWins true engineWithQueuedCreate none none =
      ((SyncEngine.pullChanges engineWithQueuedCreate none).1,
        SyncEvent.pushCall (SyncQueue.getAll engineWithQueuedCreate.persistence) ::
          (SyncEngine.pullChanges engineWithQueuedCreate none).2) :=
  (push_reject_continues_to_pull serverWins engineWithQueuedCreate none rfl
    (by decide) (fun cs t h => by cases h)).1

/-- Counterexample to C2 as stated: the push call rejects outright, yet
the same cycle still performs the pull phase — the pull call happens and
its result is applied, advancing the persisted cursor to 50. -/
theorem push_reject_cycle_not_aborted_counter :
    (SyncEngine.triggerSync serverWins true engineWithQueuedCreate none
        (some ([pulledCreateNine], 50))).1.persistence.meta = some 50 ∧
    SyncEvent.pullCall none ∈
      (SyncEngine.triggerSync serverWins true engineWithQueuedCreate none
        (some ([pulledCreateNine], 50))).2 ∧
    (SyncEngine.triggerSync serverWins true engineWithQueuedCreate none
        (some ([pulledCreateNine], 50))).1.persistence.queue =
      engineWithQueuedCreate.persistence.queue := by
  decide

/-- C9, amended: stop() unsubscribes from the Connectivity Signal, so
after stop() connectivity events are ignored — no new sync cycle starts
from a network transition until start() subscribes again; a direct
triggerSync() call is not gated by stop() (nothing but the subscription
is torn down), and an in-flight cycle is not cancelled. -/
theorem stop_ignores_connectivity (strategy : ConflictResolutionStrategy)
    (e : SyncEngine) (isOnline : Bool) (pushReply : PushReply)
    (pullReply : PullReply) :
    (SyncEngine.stop e).subscribed = false ∧
    SyncEngine.onConnectivityEvent strategy (SyncEngine.stop e) isOnline
        pushReply pullReply = (SyncEngine.stop e, []) :=
  ⟨rfl, by simp [SyncEngine.onConnectivityEvent, SyncEngine.stop]⟩

/-- Counterexample to C9 as stated: on a stopped engine a direct
triggerSync call is not ignored — it drains the queue and calls the
collaborator. -/
theorem stop_direct_trigger_counter :
    (SyncEngine.stop engineWithQueuedCreate).subscribed = false ∧
    (SyncEngine.triggerSync serverWins true (SyncEngine.stop engineWithQueuedCreate)
        (some ⟨["opB"], []⟩) none).1.persistence.queue = [] ∧
    (SyncEngine.triggerSync serverWins true (SyncEngine.stop engineWithQueuedCreate)
        (some ⟨["opB"], []⟩) none).2 ≠ [] := by
  decide

/-- C10: during the pull phase, a pulled Create or Update whose target
document id is absent from the State Projection writes its payload to
durable storage (keyed by the payload's id) while the State Projection is
left exactly unchanged and no subscriber is notified, so the in-memory
state and durable storage diverge for that document. -/
theorem pull_absent_doc_divergence (e : SyncEngine) (op : Operation) (p : Doc)
    (hty : op.type = .create ∨ op.type = .update)
    (habs : e.stateManager.getDoc op.collection op.docId = none)
    (hpay : op.payload = some p)
    (hid : getField p "id" = some op.docId)
    (hkey : validKey op.docId = true) :
    (SyncEngine.applyPulledOp e op).2.2 = true ∧
    (SyncEngine.applyPulledOp e op).2.1 = [] ∧
    (SyncEngine.applyPulledOp e op).1.stateManager = e.stateManager ∧
    (SyncEngine.applyPulledOp e op).1.stateManager.getDoc op.collection op.docId
      = none ∧
    alookup op.docId
      ((SyncEngine.applyPulledOp e op).1.persistence.getStore op.collection)
      = some p := by
  have hup : e.stateManager.updateDoc op.collection op.docId (op.payload.getD []) =
      (e.stateManager, []) := by
    simp [StateManager.updateDoc, habs]
  have hset : e.persistence.setDoc op.collection op.payload = some
      { e.persistence with
        docs := aset op.collection
          (aset op.docId p (e.persistence.getStore op.collection))
          e.persistence.docs } := by
    simp [Persistence.setDoc, hpay, hid, hkey]
  rcases hty with hty | hty <;>
  · simp only [SyncEngine.applyPulledOp, hty, hup, hset]
    refine ⟨trivial, by simp, trivial, habs, ?_⟩
    show alookup op.docId (Persistence.getStore _ op.collection) = some p
    simp [Persistence.getStore, alookup_aset_self]

/-- Witness for C10: pulling a create of document "9" into an empty
engine stores it without touching the projection or notifying anyone. -/
theorem pull_absent_doc_divergence_witness :
    (SyncEngine.applyPulledOp engineEmpty pulledCreateNine).2.1 = [] ∧
    (SyncEngine.applyPulledOp engineEmpty pulledCreateNine).1.stateManager.getDoc
        "notes" (.vStr "9") = none ∧
    alookup (JsValue.vStr "9")
      ((SyncEngine.applyPulledOp engineEmpty pulledCreateNine).1.persistence.getStore
        "notes") = some [("id", .vStr "9"), ("v", .vNum 1)] := by
  have h := pull_absent_doc_divergence engineEmpty pulledCreateNine
    [("id", .vStr "9"), ("v", .vNum 1)] (Or.inl rfl) rfl rfl (by decide) rfl
  exact ⟨h.2.1, h.2.2.2.1, h.2.2.2.2⟩

/-- C3, evaluated at the failing input (code bug): a push failure on
document "1" resolved as RemoteWins.  When the document is present
locally, the engine merges the remote document into the local copy
instead of overwriting it — the stale field `extra` survives in the State
Projection while storage receives the remote document exactly, so the two
diverge; when the document is absent from the State Projection the
projection write is silently dropped entirely.  In both cases the
operation is dequeued. -/
theorem remoteWins_projection_merge_bug :
    ((SyncEngine.pushChanges serverWins engineWithLocalDoc
        (some ⟨[], [⟨"op1", some remoteDocNotes⟩]⟩)).1.stateManager.getDoc
        "notes" (.vStr "1")
      = some [("id", .vStr "1"), ("title", .vStr "B"), ("extra", .vStr "z")]) ∧
    some [("id", JsValue.vStr "1"), ("title", JsValue.vStr "B"),
        ("extra", JsValue.vStr "z")] ≠ some remoteDocNotes ∧
    alookup (JsValue.vStr "1")
      ((SyncEngine.pushChanges serverWins engineWithLocalDoc
        (some ⟨[], [⟨"op1", some remoteDocNotes⟩]⟩)).1.persistence.getStore "notes")
      = some remoteDocNotes ∧
    (SyncEngine.pushChanges serverWins engineWithLocalDoc
        (some ⟨[], [⟨"op1", some remoteDocNotes⟩]⟩)).1.persistence.queue = [] ∧
    ((SyncEngine.pushChanges serverWins engineWithoutLocalDoc
        (some ⟨[], [⟨"op1", some remoteDocNotes⟩]⟩)).1.stateManager.getDoc
        "notes" (.vStr "1") = none) ∧
    alookup (JsValue.vStr "1")
      ((SyncEngine.pushChanges serverWins engineWithoutLocalDoc
        (some ⟨[], [⟨"op1", some remoteDocNotes⟩]⟩)).1.persistence.getStore "notes")
      = some remoteDocNotes ∧
    (SyncEngine.pushChanges serverWins engineWithoutLocalDoc
        (some ⟨[], [⟨"op1", some remoteDocNotes⟩]⟩)).1.persistence.queue = [] := by
  decide

end Syncdbg
